import Mathlib

/-!
Shallow embedding of `deltachat-rpc-client/src/deltachat_rpc_client/rpc.py`:
a line-delimited JSON-RPC 2.0 client transport (class `Rpc`) speaking to a
child process over stdin/stdout pipes.

JSON values are modelled by an inductive `Json`; Python dicts appearing in
the transport state (the pending-request registry `request_events`, the
per-account `event_queues`, environment mappings) are modelled as
association lists with first-match lookup.  Asyncio futures are modelled by
splitting the registry into the list of unresolved request ids (`pending`)
and the list of resolutions delivered to awaiting callers (`resolved`).
Bytes written to the child's stdin are recorded in `stdin_lines`; the
`print` diagnostic of the reader loop is recorded in `printed`.  An uncaught
Python exception (KeyError from a dict access) is an `Except.error`.
-/

/-- JSON values, as produced by Python's `json.loads` on protocol lines.
Numbers are integers: every number in this protocol (request ids, account
ids, error codes) is an integer. -/
inductive Json where
  | null
  | bool (b : Bool)
  | num (n : Int)
  | str (s : String)
  | arr (elems : List Json)
  | obj (fields : List (String × Json))
  deriving Repr

mutual

/-- Decidable equality on JSON values (the automatic deriving does not
handle the nesting through lists). -/
def Json.decEq : (a b : Json) → Decidable (a = b)
  | .null, .null => isTrue rfl
  | .null, .bool _ => isFalse (fun h => Json.noConfusion h)
  | .null, .num _ => isFalse (fun h => Json.noConfusion h)
  | .null, .str _ => isFalse (fun h => Json.noConfusion h)
  | .null, .arr _ => isFalse (fun h => Json.noConfusion h)
  | .null, .obj _ => isFalse (fun h => Json.noConfusion h)
  | .bool _, .null => isFalse (fun h => Json.noConfusion h)
  | .bool x, .bool y =>
    if h : x = y then isTrue (by rw [h]) else isFalse (fun he => h (Json.bool.inj he))
  | .bool _, .num _ => isFalse (fun h => Json.noConfusion h)
  | .bool _, .str _ => isFalse (fun h => Json.noConfusion h)
  | .bool _, .arr _ => isFalse (fun h => Json.noConfusion h)
  | .bool _, .obj _ => isFalse (fun h => Json.noConfusion h)
  | .num _, .null => isFalse (fun h => Json.noConfusion h)
  | .num _, .bool _ => isFalse (fun h => Json.noConfusion h)
  | .num x, .num y =>
    if h : x = y then isTrue (by rw [h]) else isFalse (fun he => h (Json.num.inj he))
  | .num _, .str _ => isFalse (fun h => Json.noConfusion h)
  | .num _, .arr _ => isFalse (fun h => Json.noConfusion h)
  | .num _, .obj _ => isFalse (fun h => Json.noConfusion h)
  | .str _, .null => isFalse (fun h => Json.noConfusion h)
  | .str _, .bool _ => isFalse (fun h => Json.noConfusion h)
  | .str _, .num _ => isFalse (fun h => Json.noConfusion h)
  | .str x, .str y =>
    if h : x = y then isTrue (by rw [h]) else isFalse (fun he => h (Json.str.inj he))
  | .str _, .arr _ => isFalse (fun h => Json.noConfusion h)
  | .str _, .obj _ => isFalse (fun h => Json.noConfusion h)
  | .arr _, .null => isFalse (fun h => Json.noConfusion h)
  | .arr _, .bool _ => isFalse (fun h => Json.noConfusion h)
  | .arr _, .num _ => isFalse (fun h => Json.noConfusion h)
  | .arr _, .str _ => isFalse (fun h => Json.noConfusion h)
  | .arr xs, .arr ys =>
    match Json.decEqList xs ys with
    | isTrue h => isTrue (by rw [h])
    | isFalse h => isFalse (fun he => h (Json.arr.inj he))
  | .arr _, .obj _ => isFalse (fun h => Json.noConfusion h)
  | .obj _, .null => isFalse (fun h => Json.noConfusion h)
  | .obj _, .bool _ => isFalse (fun h => Json.noConfusion h)
  | .obj _, .num _ => isFalse (fun h => Json.noConfusion h)
  | .obj _, .str _ => isFalse (fun h => Json.noConfusion h)
  | .obj _, .arr _ => isFalse (fun h => Json.noConfusion h)
  | .obj xs, .obj ys =>
    match Json.decEqFields xs ys with
    | isTrue h => isTrue (by rw [h])
    | isFalse h => isFalse (fun he => h (Json.obj.inj he))

/-- Decidable equality on lists of JSON values. -/
def Json.decEqList : (xs ys : List Json) → Decidable (xs = ys)
  | [], [] => isTrue rfl
  | [], _ :: _ => isFalse (fun h => List.noConfusion h)
  | _ :: _, [] => isFalse (fun h => List.noConfusion h)
  | x :: xs, y :: ys =>
    match Json.decEq x y, Json.decEqList xs ys with
    | isTrue h1, isTrue h2 => isTrue (by rw [h1, h2])
    | isFalse h1, _ => isFalse (fun he => h1 (List.cons.inj he).1)
    | _, isFalse h2 => isFalse (fun he => h2 (List.cons.inj he).2)

/-- Decidable equality on JSON object field lists. -/
def Json.decEqFields : (xs ys : List (String × Json)) → Decidable (xs = ys)
  | [], [] => isTrue rfl
  | [], _ :: _ => isFalse (fun h => List.noConfusion h)
  | _ :: _, [] => isFalse (fun h => List.noConfusion h)
  | (k, v) :: xs, (k', v') :: ys =>
    if hk : k = k' then
      match Json.decEq v v', Json.decEqFields xs ys with
      | isTrue h1, isTrue h2 => isTrue (by rw [hk, h1, h2])
      | isFalse h1, _ =>
        isFalse (fun he => h1 (congrArg Prod.snd (List.cons.inj he).1))
      | _, isFalse h2 => isFalse (fun he => h2 (List.cons.inj he).2)
    else isFalse (fun he => hk (congrArg Prod.fst (List.cons.inj he).1))

end

instance : DecidableEq Json := Json.decEq

/-- First-match association-list lookup: the model of Python dict lookup
`d[k]` / `d.get(k)` (dict keys are unique, so first match is the match). -/
def alookup {α β : Type} [DecidableEq α] : List (α × β) → α → Option β
  | [], _ => none
  | (k, v) :: ps, key => if k = key then some v else alookup ps key

/-- Python `k in response` on a parsed JSON object (False on non-objects,
which is the only case the routed lines exercise). -/
def Json.hasKey : Json → String → Bool
  | .obj fields, k => (alookup fields k).isSome
  | _, _ => false

/-- Python `response[k]` when it succeeds: `none` models a raised KeyError
(or TypeError on a non-object). -/
def Json.getKey : Json → String → Option Json
  | .obj fields, k => alookup fields k
  | _, _ => none

/-- `response[k]` under a guard that already established the key exists. -/
def Json.getD (j : Json) (k : String) : Json :=
  (j.getKey k).getD Json.null

/-- One escaped character of a JSON string literal, as Python's
`json.dumps` emits it for the ASCII characters used by this protocol. -/
def escapeChar (c : Char) : String :=
  if c = '"' then "\\\""
  else if c = '\\' then "\\\\"
  else if c = '\n' then "\\n"
  else if c = '\r' then "\\r"
  else if c = '\t' then "\\t"
  else String.singleton c

/-- Body of a JSON string literal under `json.dumps`. -/
def escapeString (s : String) : String :=
  String.join (s.toList.map escapeChar)

/-- A JSON string literal under `json.dumps`. -/
def dumpStr (s : String) : String :=
  "\"" ++ escapeString s ++ "\""

mutual

/-- Python `json.dumps` with default options: items separated by a comma
and a space, keys and values separated by a colon and a space, objects kept
in insertion order (`sort_keys=False`). -/
def Json.dumps : Json → String
  | .null => "null"
  | .bool b => cond b "true" "false"
  | .num n => toString n
  | .str s => dumpStr s
  | .arr elems => "[" ++ String.intercalate ", " (dumpsArr elems) ++ "]"
  | .obj fields => "\x7b" ++ String.intercalate ", " (dumpsObj fields) ++ "\x7d"

/-- Serialized elements of a JSON array. -/
def dumpsArr : List Json → List String
  | [] => []
  | x :: xs => Json.dumps x :: dumpsArr xs

/-- Serialized `key: value` items of a JSON object. -/
def dumpsObj : List (String × Json) → List String
  | [] => []
  | (k, v) :: fs => (dumpStr k ++ ": " ++ Json.dumps v) :: dumpsObj fs

end

/-- State of one `Rpc` transport instance after `start`:
`id` is the `self.id` counter; `pending` holds the keys of
`self.request_events` whose futures are not yet resolved; `resolved`
records, per request id, the response object `set_result` delivered to the
awaiting caller; `event_queues` is `self.event_queues` (account id, FIFO
queue with the front at the head); `stdin_lines` records the lines written
to the child's stdin; `printed` records the reader loop's diagnostics. -/
structure RpcState where
  id : Nat
  pending : List Json
  resolved : List (Json × Json)
  event_queues : List (Json × List Json)
  stdin_lines : List String
  printed : List Json
  deriving Repr, DecidableEq

/-- The state `Rpc.start` establishes: `self.id = 0`, empty
`self.event_queues`, empty `self.request_events`. -/
def startState : RpcState :=
  { id := 0, pending := [], resolved := [], event_queues := [],
    stdin_lines := [], printed := [] }

/-- `self.event_queues[account_id].put(e)` preceded by the lazy
`if account_id not in self.event_queues: self.event_queues[account_id] = Queue()`:
a missing key is inserted at the end (Python dict insertion order), an
existing queue gets the event appended at its back. -/
def enqueueEvent : List (Json × List Json) → Json → Json → List (Json × List Json)
  | [], k, e => [(k, [e])]
  | (k', q) :: ps, k, e =>
    if k' = k then (k', q ++ [e]) :: ps else (k', q) :: enqueueEvent ps k e

/-- Replace the queue stored under an existing key (used when a `get`
removes the front element). -/
def setQueue : List (Json × List Json) → Json → List Json → List (Json × List Json)
  | [], _, _ => []
  | (k', q') :: ps, k, q =>
    if k' = k then (k', q) :: ps else (k', q') :: setQueue ps k q

/-- An uncaught exception inside `Rpc.reader_loop`: a KeyError from
`self.request_events.pop(response["id"])` or from a `[...]` access on a
parsed object.  Such an exception terminates the reader task. -/
inductive ReaderError where
  | keyError (ctx : String)
  deriving Repr, DecidableEq

/-- One iteration of `Rpc.reader_loop` on a parsed line (rpc.py lines
57-69): if the object has an `id` field it is a response, so the pending
entry for that id is popped (KeyError if absent) and resolved with the full
object; else if `method` is `"event"` (KeyError if `method` is absent) the
event is enqueued for `params["contextId"]`, creating the queue lazily;
else the object is printed and the loop continues. -/
def processLine (s : RpcState) (response : Json) : Except ReaderError RpcState :=
  if response.hasKey "id" then
    let i := response.getD "id"
    if i ∈ s.pending then
      Except.ok { s with pending := s.pending.erase i,
                         resolved := s.resolved ++ [(i, response)] }
    else
      Except.error (ReaderError.keyError "request_events.pop")
  else
    match response.getKey "method" with
    | none => Except.error (ReaderError.keyError "method")
    | some m =>
      if m = Json.str "event" then
        match response.getKey "params" with
        | none => Except.error (ReaderError.keyError "params")
        | some params =>
          match params.getKey "contextId" with
          | none => Except.error (ReaderError.keyError "contextId")
          | some account_id =>
            match params.getKey "event" with
            | none => Except.error (ReaderError.keyError "event")
            | some ev =>
              Except.ok { s with
                event_queues := enqueueEvent s.event_queues account_id ev }
      else
        Except.ok { s with printed := s.printed ++ [response] }

/-- The reader loop run over a finite prefix of the wire stream, one parsed
line at a time in arrival order; the first uncaught exception aborts it. -/
def processLines (s : RpcState) : List Json → Except ReaderError RpcState
  | [] => Except.ok s
  | l :: ls =>
    match processLine s l with
    | Except.error e => Except.error e
    | Except.ok s' => processLines s' ls

/-- A failed `assert not (args and kwargs)` in the dispatched method
(rpc.py line 82). -/
inductive CallError where
  | assertionError (msg : String)
  deriving Repr, DecidableEq

/-- The send half of the coroutine returned by `Rpc.__getattr__` (rpc.py
lines 78-94): increment `self.id`, take it as the request id, assert that
positional and keyword arguments are not mixed, build the request object
with `params` being `kwargs or args`, write its JSON serialization plus a
newline to the child's stdin, and register a pending future under the
request id.  Returns the updated state and the request id, or the
assertion error (with `self.id` already incremented). -/
def sendRequest (s : RpcState) (attr : String) (args : List Json)
    (kwargs : List (String × Json)) : RpcState × Except CallError Nat :=
  let s1 : RpcState := { s with id := s.id + 1 }
  let request_id := s1.id
  if args ≠ [] ∧ kwargs ≠ [] then
    (s1, Except.error (CallError.assertionError "Mixing positional and keyword arguments"))
  else
    let params : Json := if kwargs.isEmpty then Json.arr args else Json.obj kwargs
    let request : Json := Json.obj
      [("jsonrpc", Json.str "2.0"), ("method", Json.str attr),
       ("params", params), ("id", Json.num (request_id : Int))]
    let data := request.dumps ++ "\n"
    ({ s1 with stdin_lines := s1.stdin_lines ++ [data],
               pending := s1.pending ++ [Json.num (request_id : Int)] },
     Except.ok request_id)

/-- The resume half of the coroutine returned by `Rpc.__getattr__` (rpc.py
lines 95-99), applied to the response object the reader loop delivered to
the call's future: if the response has an `error` field, raise
`JsonRpcError` carrying that payload; else if it has a `result` field,
return that value; else fall through and return `None`. -/
def finishCall (response : Json) : Except Json (Option Json) :=
  if response.hasKey "error" then
    Except.error (response.getD "error")
  else if response.hasKey "result" then
    Except.ok (some (response.getD "result"))
  else
    Except.ok none

/-- Outcome of `Rpc.wait_for_event` (rpc.py lines 71-75) on a state
snapshot: if the account has no queue, the coroutine returns `None`
immediately (`noQueue`); if the queue exists but is empty, `await get()`
suspends (`blocked`); if the queue has a front element, `get()` returns it
and removes it (`next`). -/
inductive WaitResult where
  | noQueue
  | blocked
  | next (e : Json) (s' : RpcState)
  deriving Repr, DecidableEq

/-- `Rpc.wait_for_event`: queue presence (not data presence) decides
between returning `None` immediately and awaiting `get()`. -/
def wait_for_event (s : RpcState) (account_id : Int) : WaitResult :=
  match alookup s.event_queues (Json.num account_id) with
  | none => WaitResult.noQueue
  | some [] => WaitResult.blocked
  | some (e :: rest) =>
    WaitResult.next e
      { s with event_queues := setQueue s.event_queues (Json.num account_id) rest }

/-- Python `dict` update as in the merge expression of `Rpc.__init__`
(rpc.py lines 15-18): an existing key keeps its position with the new
value, a fresh key is appended. -/
def dictInsert : List (String × String) → String → String → List (String × String)
  | [], k, v => [(k, v)]
  | (k', v') :: ps, k, v =>
    if k' = k then (k, v) :: ps else (k', v') :: dictInsert ps k v

/-- The environment the child process receives, per `Rpc.__init__` (rpc.py
lines 12-20) plus the subprocess default: the base is the caller-supplied
`env` keyword argument if given, else the current process environment; when
`accounts_dir` is truthy (a non-empty string), `DC_ACCOUNTS_PATH` is bound
to it on top of the base, leaving every other key of the base unchanged. -/
def childEnv (accounts_dir : Option String)
    (kwargs_env : Option (List (String × String)))
    (os_environ : List (String × String)) : List (String × String) :=
  let base := kwargs_env.getD os_environ
  match accounts_dir with
  | none => base
  | some dir => if dir = "" then base else dictInsert base "DC_ACCOUNTS_PATH" dir

/-- The wire shape of an event notification, as the reader loop consumes
it: `method` is `"event"` and `params` carries `contextId` and `event`. -/
def eventLine (account_id : Int) (e : Json) : Json :=
  Json.obj [("method", Json.str "event"),
            ("params", Json.obj [("contextId", Json.num account_id), ("event", e)])]

/-! ### Lemmas about the dictionary operations -/

theorem alookup_dictInsert_self (d : List (String × String)) (k v : String) :
    alookup (dictInsert d k v) k = some v := by
  induction d with
  | nil => simp [alookup, dictInsert]
  | cons p ps ih =>
    obtain ⟨k', v'⟩ := p
    by_cases h : k' = k <;> simp [alookup, dictInsert, h, ih]

theorem alookup_dictInsert_ne (d : List (String × String)) (k v k' : String)
    (h : k' ≠ k) : alookup (dictInsert d k v) k' = alookup d k' := by
  induction d with
  | nil => simp [alookup, dictInsert, h.symm]
  | cons p ps ih =>
    obtain ⟨k'', v''⟩ := p
    by_cases h1 : k'' = k
    · subst h1
      simp [alookup, dictInsert, h.symm]
    · simp [alookup, dictInsert, h1, ih]

theorem alookup_enqueueEvent_self (qs : List (Json × List Json)) (k e : Json) :
    alookup (enqueueEvent qs k e) k = some ((alookup qs k).getD [] ++ [e]) := by
  induction qs with
  | nil => simp [alookup, enqueueEvent]
  | cons p ps ih =>
    obtain ⟨k', q⟩ := p
    by_cases h : k' = k <;> simp [alookup, enqueueEvent, h, ih]

theorem alookup_enqueueEvent_ne (qs : List (Json × List Json)) (k e k' : Json)
    (h : k' ≠ k) : alookup (enqueueEvent qs k e) k' = alookup qs k' := by
  induction qs with
  | nil => simp [alookup, enqueueEvent, h.symm]
  | cons p ps ih =>
    obtain ⟨k'', q⟩ := p
    by_cases h1 : k'' = k
    · subst h1
      simp [alookup, enqueueEvent, h.symm]
    · simp [alookup, enqueueEvent, h1, ih]

theorem alookup_setQueue_self (qs : List (Json × List Json)) (k : Json)
    (q : List Json) (hs : (alookup qs k).isSome) :
    alookup (setQueue qs k q) k = some q := by
  induction qs with
  | nil => simp [alookup] at hs
  | cons p ps ih =>
    obtain ⟨k', q'⟩ := p
    by_cases h : k' = k
    · simp [alookup, setQueue, h]
    · simp [alookup, setQueue, h] at hs ⊢
      exact ih hs

theorem alookup_setQueue_ne (qs : List (Json × List Json)) (k : Json)
    (q : List Json) (k' : Json) (h : k' ≠ k) :
    alookup (setQueue qs k q) k' = alookup qs k' := by
  induction qs with
  | nil => simp [setQueue]
  | cons p ps ih =>
    obtain ⟨k'', q''⟩ := p
    by_cases h1 : k'' = k
    · subst h1
      simp [alookup, setQueue, h.symm]
    · simp [alookup, setQueue, h1, ih]

/-! ### Lemmas about single reader-loop steps -/

/-- A response line whose id is pending is popped and resolved with the
full response object; nothing else in the state changes. -/
theorem processLine_response (s : RpcState) (r : Json)
    (hk : r.hasKey "id" = true) (hp : r.getD "id" ∈ s.pending) :
    processLine s r = Except.ok
      { s with pending := s.pending.erase (r.getD "id"),
               resolved := s.resolved ++ [(r.getD "id", r)] } := by
  simp [processLine, hk, hp]

/-- A response line whose id is not pending raises KeyError in
`request_events.pop`. -/
theorem processLine_missing (s : RpcState) (r : Json)
    (hk : r.hasKey "id" = true) (hp : r.getD "id" ∉ s.pending) :
    processLine s r = Except.error (ReaderError.keyError "request_events.pop") := by
  simp [processLine, hk, hp]

/-- An event notification line enqueues its event for its account and
touches nothing else. -/
theorem processLine_event (s : RpcState) (a : Int) (e : Json) :
    processLine s (eventLine a e) = Except.ok
      { s with event_queues := enqueueEvent s.event_queues (Json.num a) e } := by
  rfl

/-- A line with no `id` field whose `method` field exists but is not the
string `"event"` is printed as a diagnostic and the state is otherwise
unchanged. -/
theorem processLine_diagnostic (s : RpcState) (r m : Json)
    (hid : r.hasKey "id" = false) (hm : r.getKey "method" = some m)
    (hne : m ≠ Json.str "event") :
    processLine s r = Except.ok { s with printed := s.printed ++ [r] } := by
  simp [processLine, hid, hm, hne]

/-- A line with no `id` field and no `method` field raises KeyError at
`response["method"]`, an uncaught exception that terminates the reader
task. -/
theorem processLine_no_method (s : RpcState) (r : Json)
    (hid : r.hasKey "id" = false) (hm : r.getKey "method" = none) :
    processLine s r = Except.error (ReaderError.keyError "method") := by
  simp [processLine, hid, hm]

/-- Running the reader loop over response lines whose ids are a permutation
of the pending ids succeeds, resolves each line under its own id in arrival
order, and leaves the event queues and diagnostics unchanged. -/
theorem processLines_perm (lines : List Json) : ∀ (s : RpcState),
    (∀ l ∈ lines, l.hasKey "id" = true) →
    (lines.map (fun l => l.getD "id")).Perm s.pending →
    ∃ p, processLines s lines = Except.ok
      { s with pending := p,
               resolved := s.resolved ++ lines.map (fun l => (l.getD "id", l)) } := by
  induction lines with
  | nil =>
    intro s _ _
    exact ⟨s.pending, by simp [processLines]⟩
  | cons l ls ih =>
    intro s hk hperm
    have hk_l : l.hasKey "id" = true := hk l (by simp)
    rw [List.map_cons, List.cons_perm_iff_perm_erase] at hperm
    obtain ⟨hmem, hperm'⟩ := hperm
    have hstep := processLine_response s l hk_l hmem
    obtain ⟨p, hp⟩ := ih
      { s with pending := s.pending.erase (l.getD "id"),
               resolved := s.resolved ++ [(l.getD "id", l)] }
      (fun x hx => hk x (by simp [hx])) (by simpa using hperm')
    refine ⟨p, ?_⟩
    simp only [processLines, hstep]
    rw [hp]
    simp

/-- In an association list whose entries are elements keyed by an injective
view of themselves, looking up an element's key finds that element. -/
theorem alookup_map_of_nodup {α β : Type} [DecidableEq α] (f : β → α) :
    ∀ (ls : List β) (l : β), (ls.map f).Nodup → l ∈ ls →
      alookup (ls.map (fun x => (f x, x))) (f l) = some l := by
  intro ls
  induction ls with
  | nil => intro l _ hl; simp at hl
  | cons x xs ih =>
    intro l hnd hl
    rw [List.map_cons] at hnd
    have hnd' := List.nodup_cons.mp hnd
    rcases List.mem_cons.mp hl with h | h
    · subst h; simp [alookup]
    · have hne : f x ≠ f l := by
        intro he
        have hmem : f l ∈ xs.map f := List.mem_map_of_mem f h
        rw [← he] at hmem
        exact hnd'.1 hmem
      simp [alookup, hne, ih l hnd'.2 h]

/-! ### Claim theorems -/

/-- Claim C1: for every set of N calls issued through the dispatcher, each
assigned a distinct request id at send time (the pending registry holds
those ids), and for every arrival order of the N response lines (any
permutation of the pending ids), the reader loop resolves each call's
future with exactly the response object whose `id` field equals the id
assigned to that call, independent of the relative order of sends and
arrivals. -/
theorem correlation_invariant (lines : List Json) (s : RpcState)
    (hkeys : ∀ l ∈ lines, l.hasKey "id" = true)
    (hperm : (lines.map (fun l => l.getD "id")).Perm s.pending)
    (hnodup : s.pending.Nodup) (hres : s.resolved = []) :
    ∃ s', processLines s lines = Except.ok s' ∧
      ∀ l ∈ lines, alookup s'.resolved (l.getD "id") = some l := by
  obtain ⟨p, hp⟩ := processLines_perm lines s hkeys hperm
  refine ⟨_, hp, ?_⟩
  intro l hl
  have hnd : (lines.map (fun l => l.getD "id")).Nodup := hperm.symm.nodup hnodup
  simp only [hres, List.nil_append]
  exact alookup_map_of_nodup (fun l => l.getD "id") lines l hnd hl

/-- State after two calls (`get_system_info`, then `get_info`) were sent
from a fresh transport: ids 1 and 2 are pending. -/
def c1state : RpcState :=
  (sendRequest (sendRequest startState "get_system_info" [] []).1 "get_info" [] []).1

/-- Response carrying id 1. -/
def c1resp1 : Json := Json.obj [("id", Json.num 1), ("result", Json.str "sys")]

/-- Response carrying id 2. -/
def c1resp2 : Json := Json.obj [("id", Json.num 2), ("result", Json.str "info")]

theorem correlation_invariant_witness :
    ∃ s', processLines c1state [c1resp2, c1resp1] = Except.ok s' ∧
      alookup s'.resolved (Json.num 2) = some c1resp2 ∧
      alookup s'.resolved (Json.num 1) = some c1resp1 := by
  obtain ⟨s', h1, h2⟩ := correlation_invariant [c1resp2, c1resp1] c1state
    (by decide) (by decide) (by decide) (by decide)
  exact ⟨s', h1, h2 c1resp2 (by simp), h2 c1resp1 (by simp)⟩

/-- Claim C3: a response object containing an `error` field makes the call
fail, raising `JsonRpcError` with the server's error payload verbatim; a
response containing a `result` field (and no `error` field) makes the call
succeed with exactly that result value. -/
theorem error_result_dichotomy (r : Json) :
    (r.hasKey "error" = true → finishCall r = Except.error (r.getD "error")) ∧
    (r.hasKey "error" = false → r.hasKey "result" = true →
      finishCall r = Except.ok (some (r.getD "result"))) := by
  constructor
  · intro h
    simp [finishCall, h]
  · intro h1 h2
    simp [finishCall, h1, h2]

/-- The error response of the claim: id 7 with payload code -1, message x. -/
def c3err : Json :=
  Json.obj [("id", Json.num 7),
            ("error", Json.obj [("code", Json.num (-1)), ("message", Json.str "x")])]

/-- A success response with a result payload. -/
def c3res : Json := Json.obj [("id", Json.num 8), ("result", Json.num 42)]

theorem error_result_dichotomy_witness :
    finishCall c3err = Except.error (Json.getD c3err "error") ∧
    finishCall c3res = Except.ok (some (Json.getD c3res "result")) :=
  ⟨(error_result_dichotomy c3err).1 (by decide),
   (error_result_dichotomy c3res).2 (by decide) (by decide)⟩

/-- Claim C4: a pending entry is removed from the registry at the moment
the reader loop resolves it, so a second response line carrying the same id
finds no entry: `request_events.pop` raises KeyError (the detectable
protocol violation) instead of resolving any call a second time. -/
theorem at_most_once_resolution (s : RpcState) (r1 r2 : Json)
    (hk1 : r1.hasKey "id" = true) (hk2 : r2.hasKey "id" = true)
    (hsame : r2.getD "id" = r1.getD "id")
    (hp : r1.getD "id" ∈ s.pending) (hnd : s.pending.Nodup) :
    ∃ s', processLine s r1 = Except.ok s' ∧ r1.getD "id" ∉ s'.pending ∧
      processLine s' r2 = Except.error (ReaderError.keyError "request_events.pop") := by
  refine ⟨_, processLine_response s r1 hk1 hp, ?_, ?_⟩
  · intro hmem
    exact ((List.Nodup.mem_erase_iff hnd).mp hmem).1 rfl
  · apply processLine_missing _ r2 hk2
    rw [hsame]
    intro hmem
    exact ((List.Nodup.mem_erase_iff hnd).mp hmem).1 rfl

/-- A response carrying id 7. -/
def c4resp : Json := Json.obj [("id", Json.num 7), ("result", Json.null)]

theorem at_most_once_resolution_witness :
    ∃ s', processLine { startState with pending := [Json.num 7] } c4resp = Except.ok s' ∧
      Json.getD c4resp "id" ∉ s'.pending ∧
      processLine s' c4resp = Except.error (ReaderError.keyError "request_events.pop") :=
  at_most_once_resolution { startState with pending := [Json.num 7] } c4resp c4resp
    (by decide) (by decide) rfl (by decide) (by decide)

/-- Claim C10: a response whose id matches a pending call but which carries
neither an `error` nor a `result` field resolves the call as a success
returning `None` — the dispatched coroutine falls through both checks and
raises nothing. -/
theorem response_without_result_or_error (r : Json)
    (h1 : r.hasKey "error" = false) (h2 : r.hasKey "result" = false) :
    finishCall r = Except.ok none := by
  simp [finishCall, h1, h2]

theorem response_without_result_or_error_witness :
    finishCall (Json.obj [("id", Json.num 3)]) = Except.ok none :=
  response_without_result_or_error (Json.obj [("id", Json.num 3)]) (by decide) (by decide)

/-- The event that a parsed line contributes to account `c`'s queue when
the reader loop processes it successfully: response lines (which carry an
`id`), diagnostic lines (whose `method` is not `"event"`), and event
notifications addressed to other accounts contribute nothing.  The
branches mirror the routing of `processLine`; `processLine_queue` proves
the two agree. -/
def lineEvent (c : Json) (l : Json) : Option Json :=
  if l.hasKey "id" then none
  else
    match l.getKey "method" with
    | none => none
    | some m =>
      if m = Json.str "event" then
        match l.getKey "params" with
        | none => none
        | some params =>
          match params.getKey "contextId" with
          | none => none
          | some cid =>
            match params.getKey "event" with
            | none => none
            | some e => if cid = c then some e else none
      else none

/-- The events addressed to account `c` inside a stretch of wire traffic,
in arrival order. -/
def eventsFor (c : Json) (lines : List Json) : List Json :=
  lines.filterMap (lineEvent c)

/-- The successful event branch of the reader loop (rpc.py lines 61-67):
the event is enqueued for `params["contextId"]` and nothing else in the
state changes. -/
theorem processLine_event_ok (s : RpcState) (l params cid ev : Json)
    (hid : l.hasKey "id" = false) (hm : l.getKey "method" = some (Json.str "event"))
    (hp : l.getKey "params" = some params)
    (hc : params.getKey "contextId" = some cid)
    (he : params.getKey "event" = some ev) :
    processLine s l = Except.ok
      { s with event_queues := (enqueueEvent s.event_queues cid ev) } := by
  simp [processLine, hid, hm, hp, hc, he]

/-- The event branch raises KeyError when `params` is absent. -/
theorem processLine_event_no_params (s : RpcState) (l : Json)
    (hid : l.hasKey "id" = false) (hm : l.getKey "method" = some (Json.str "event"))
    (hp : l.getKey "params" = none) :
    processLine s l = Except.error (ReaderError.keyError "params") := by
  simp [processLine, hid, hm, hp]

/-- The event branch raises KeyError when `params["contextId"]` is absent. -/
theorem processLine_event_no_contextId (s : RpcState) (l params : Json)
    (hid : l.hasKey "id" = false) (hm : l.getKey "method" = some (Json.str "event"))
    (hp : l.getKey "params" = some params)
    (hc : params.getKey "contextId" = none) :
    processLine s l = Except.error (ReaderError.keyError "contextId") := by
  simp [processLine, hid, hm, hp, hc]

/-- The event branch raises KeyError when `params["event"]` is absent. -/
theorem processLine_event_no_event (s : RpcState) (l params cid : Json)
    (hid : l.hasKey "id" = false) (hm : l.getKey "method" = some (Json.str "event"))
    (hp : l.getKey "params" = some params)
    (hc : params.getKey "contextId" = some cid)
    (he : params.getKey "event" = none) :
    processLine s l = Except.error (ReaderError.keyError "event") := by
  simp [processLine, hid, hm, hp, hc, he]

/-- One successful reader-loop step changes account `c`'s queue by exactly
the event the line addresses to `c` (appended at the back), and creates
the queue exactly when such an event arrives on a missing queue. -/
theorem processLine_queue (s s' : RpcState) (l c : Json)
    (h : processLine s l = Except.ok s') :
    (alookup s'.event_queues c = none ↔
      (alookup s.event_queues c = none ∧ lineEvent c l = none)) ∧
    (alookup s'.event_queues c).getD [] =
      (alookup s.event_queues c).getD [] ++ (lineEvent c l).toList := by
  by_cases hid : l.hasKey "id" = true
  · by_cases hp : l.getD "id" ∈ s.pending
    · rw [processLine_response s l hid hp] at h
      injection h with h
      subst h
      simp [lineEvent, hid]
    · rw [processLine_missing s l hid hp] at h
      exact Except.noConfusion h
  · have hid' : l.hasKey "id" = false := by simpa using hid
    rcases hmm : l.getKey "method" with _ | m
    · rw [processLine_no_method s l hid' hmm] at h
      exact Except.noConfusion h
    · by_cases hme : m = Json.str "event"
      · subst hme
        rcases hpp : l.getKey "params" with _ | params
        · rw [processLine_event_no_params s l hid' hmm hpp] at h
          exact Except.noConfusion h
        · rcases hcc : params.getKey "contextId" with _ | cid
          · rw [processLine_event_no_contextId s l params hid' hmm hpp hcc] at h
            exact Except.noConfusion h
          · rcases hee : params.getKey "event" with _ | ev
            · rw [processLine_event_no_event s l params cid hid' hmm hpp hcc hee] at h
              exact Except.noConfusion h
            · rw [processLine_event_ok s l params cid ev hid' hmm hpp hcc hee] at h
              injection h with h
              subst h
              by_cases hc : cid = c
              · subst hc
                constructor
                · simp [lineEvent, hid', hmm, hpp, hcc, hee, alookup_enqueueEvent_self]
                · simp [lineEvent, hid', hmm, hpp, hcc, hee, alookup_enqueueEvent_self]
              · have hcs : c ≠ cid := fun he' => hc he'.symm
                constructor
                · simp [lineEvent, hid', hmm, hpp, hcc, hee, hc,
                    alookup_enqueueEvent_ne _ _ _ _ hcs]
                · simp [lineEvent, hid', hmm, hpp, hcc, hee, hc,
                    alookup_enqueueEvent_ne _ _ _ _ hcs]
      · rw [processLine_diagnostic s l m hid' hmm hme] at h
        injection h with h
        subst h
        simp [lineEvent, hid', hmm, hme]

/-- Running the reader loop over any successfully processed stretch of
wire traffic extends account `c`'s queue by exactly the events addressed
to `c`, at the back, in arrival order, and creates the queue exactly when
the first such event arrives. -/
theorem processLines_queue (lines : List Json) : ∀ (s s' : RpcState) (c : Json),
    processLines s lines = Except.ok s' →
    (alookup s'.event_queues c = none ↔
      (alookup s.event_queues c = none ∧ eventsFor c lines = [])) ∧
    (alookup s'.event_queues c).getD [] =
      (alookup s.event_queues c).getD [] ++ eventsFor c lines := by
  induction lines with
  | nil =>
    intro s s' c h
    simp only [processLines] at h
    injection h with h
    subst h
    simp [eventsFor]
  | cons l ls ih =>
    intro s s' c h
    simp only [processLines] at h
    rcases hstep : processLine s l with e | s1
    · rw [hstep] at h
      exact Except.noConfusion h
    · rw [hstep] at h
      obtain ⟨hiff1, hgd1⟩ := processLine_queue s s1 l c hstep
      obtain ⟨hiff2, hgd2⟩ := ih s1 s' c h
      constructor
      · rw [hiff2, hiff1]
        cases hle : lineEvent c l <;>
          simp [eventsFor, List.filterMap_cons, hle]
      · rw [hgd2, hgd1]
        cases hle : lineEvent c l <;>
          simp [eventsFor, List.filterMap_cons, hle]

/-- `n` successive `wait_for_event` calls for one account, each performed
on the state the previous call left behind, collecting the events they
return (stopping early if a call does not return an event). -/
def drainN (s : RpcState) (a : Int) : Nat → List Json × RpcState
  | 0 => ([], s)
  | n + 1 =>
    match wait_for_event s a with
    | WaitResult.next e s' =>
      let p := drainN s' a n
      (e :: p.1, p.2)
    | _ => ([], s)

/-- Draining a present queue yields exactly its contents, front to back,
leaves that queue present and empty, and never touches any other
account's queue. -/
theorem drainN_yields (q : List Json) : ∀ (s : RpcState) (a : Int),
    alookup s.event_queues (Json.num a) = some q →
    ∃ sf, drainN s a q.length = (q, sf) ∧
      alookup sf.event_queues (Json.num a) = some [] ∧
      ∀ c, c ≠ Json.num a → alookup sf.event_queues c = alookup s.event_queues c := by
  induction q with
  | nil =>
    intro s a hq
    exact ⟨s, by simp [drainN], hq, fun c _ => rfl⟩
  | cons e q ih =>
    intro s a hq
    have hw : wait_for_event s a = WaitResult.next e
        { s with event_queues := (setQueue s.event_queues (Json.num a) q) } := by
      simp [wait_for_event, hq]
    have hq1 : alookup (setQueue s.event_queues (Json.num a) q) (Json.num a) = some q := by
      apply alookup_setQueue_self
      rw [hq]
      rfl
    obtain ⟨sf, h1, h2, h3⟩ :=
      ih { s with event_queues := (setQueue s.event_queues (Json.num a) q) } a hq1
    refine ⟨sf, ?_, h2, ?_⟩
    · simp [drainN, hw, h1]
    · intro c hc
      rw [h3 c hc]
      exact alookup_setQueue_ne _ _ _ _ hc

/-- Claim C5: over any successfully processed stretch of wire traffic
(responses, diagnostics and other accounts' events freely interleaved),
account `a`'s queue grows by exactly the events addressed to `a`, at the
back, in wire arrival order — so for any two of its events with e1
strictly before e2 on the wire, e1 sits before e2 in the queue; the queue
exists afterwards unless it did not exist before and no event arrived.
Successive `wait_for_event` calls for `a` then yield the queued events
front to back in exactly that order (so e1 is yielded before e2), leaving
every other account's queue untouched; and any single `wait_for_event`
consumption on `a` leaves every other account's queue lookup — ordering
and availability — unchanged. -/
theorem event_fifo_per_account (s s' : RpcState) (lines : List Json) (a : Int)
    (hrun : processLines s lines = Except.ok s') :
    (alookup s'.event_queues (Json.num a) = none ↔
      (alookup s.event_queues (Json.num a) = none ∧
        eventsFor (Json.num a) lines = [])) ∧
    ((alookup s'.event_queues (Json.num a)).getD [] =
      (alookup s.event_queues (Json.num a)).getD [] ++ eventsFor (Json.num a) lines) ∧
    (∀ qa, alookup s'.event_queues (Json.num a) = some qa →
      ∃ sf, drainN s' a qa.length = (qa, sf) ∧
        alookup sf.event_queues (Json.num a) = some [] ∧
        ∀ c, c ≠ Json.num a → alookup sf.event_queues c = alookup s'.event_queues c) ∧
    (∀ u : RpcState, ∀ e : Json, ∀ t : RpcState,
      wait_for_event u a = WaitResult.next e t →
      ∀ c, c ≠ Json.num a → alookup t.event_queues c = alookup u.event_queues c) := by
  obtain ⟨hiff, hgd⟩ := processLines_queue lines s s' (Json.num a) hrun
  refine ⟨hiff, hgd, fun qa hqa => drainN_yields qa s' a hqa, ?_⟩
  intro u e t hw c hc
  rcases hu : alookup u.event_queues (Json.num a) with _ | q
  · rw [wait_for_event, hu] at hw
    exact WaitResult.noConfusion hw
  · cases q with
    | nil =>
      rw [wait_for_event, hu] at hw
      exact WaitResult.noConfusion hw
    | cons x xs =>
      have hws : wait_for_event u a = WaitResult.next x
          { u with event_queues := (setQueue u.event_queues (Json.num a) xs) } := by
        simp [wait_for_event, hu]
      rw [hws] at hw
      injection hw with he ht
      subst ht
      exact alookup_setQueue_ne _ _ _ _ hc

/-- A start state with request id 1 pending, so the traffic below can
interleave a response among the events. -/
def c5start : RpcState := { startState with pending := [Json.num 1] }

/-- Wire traffic interleaving two events for account 5 with a response and
an event for account 7. -/
def c5lines : List Json :=
  [eventLine 5 (Json.str "A"),
   Json.obj [("id", Json.num 1), ("result", Json.null)],
   eventLine 7 (Json.str "X"),
   eventLine 5 (Json.str "B")]

/-- The state the reader loop reaches on that traffic. -/
def c5final : RpcState :=
  { id := 0, pending := [],
    resolved := [(Json.num 1, Json.obj [("id", Json.num 1), ("result", Json.null)])],
    event_queues := [(Json.num 5, [Json.str "A", Json.str "B"]),
                     (Json.num 7, [Json.str "X"])],
    stdin_lines := [], printed := [] }

theorem event_fifo_per_account_witness :
    ((alookup c5final.event_queues (Json.num 5)).getD [] =
      (alookup c5start.event_queues (Json.num 5)).getD [] ++
        eventsFor (Json.num 5) c5lines) ∧
    ∃ sf, drainN c5final 5 2 = ([Json.str "A", Json.str "B"], sf) ∧
      alookup sf.event_queues (Json.num 5) = some [] ∧
      alookup sf.event_queues (Json.num 7) = alookup c5final.event_queues (Json.num 7) := by
  obtain ⟨h1, h2, h3, h4⟩ := event_fifo_per_account c5start c5final c5lines 5 rfl
  obtain ⟨sf, hd, he, hiso⟩ := h3 [Json.str "A", Json.str "B"] rfl
  exact ⟨h2, sf, hd, he, hiso (Json.num 7) (by decide)⟩
/-- Claim C6: `wait_for_event` on an account with no queue (no event has
ever arrived for it) returns `None` immediately without suspending; on an
account whose queue exists it suspends (on an empty queue) until an event
is available and returns the front event (on a nonempty queue): queue
presence, not data presence, decides whether the call blocks. -/
theorem queue_presence_asymmetry (s : RpcState) (a : Int) :
    (alookup s.event_queues (Json.num a) = none →
      wait_for_event s a = WaitResult.noQueue) ∧
    (alookup s.event_queues (Json.num a) = some [] →
      wait_for_event s a = WaitResult.blocked) ∧
    (∀ e q, alookup s.event_queues (Json.num a) = some (e :: q) →
      wait_for_event s a = WaitResult.next e
        { s with event_queues := setQueue s.event_queues (Json.num a) q }) := by
  refine ⟨fun h => ?_, fun h => ?_, fun e q h => ?_⟩ <;> simp [wait_for_event, h]

theorem queue_presence_asymmetry_witness :
    wait_for_event startState 9 = WaitResult.noQueue ∧
    wait_for_event { startState with event_queues := [(Json.num 9, [])] } 9 =
      WaitResult.blocked ∧
    wait_for_event { startState with event_queues := [(Json.num 9, [Json.str "E"])] } 9 =
      WaitResult.next (Json.str "E")
        { startState with event_queues :=
            (setQueue [(Json.num 9, [Json.str "E"])] (Json.num 9) []) } :=
  ⟨(queue_presence_asymmetry startState 9).1 (by decide),
   (queue_presence_asymmetry { startState with event_queues := [(Json.num 9, [])] } 9).2.1
     (by decide),
   (queue_presence_asymmetry
     { startState with event_queues := [(Json.num 9, [Json.str "E"])] } 9).2.2
     (Json.str "E") [] (by decide)⟩

/-- Claim C7 (counterexample): a line parsing to a JSON object with no `id`
field and no `method` field at all is NOT merely surfaced as a diagnostic:
`response["method"]` raises KeyError, an uncaught exception that is fatal
to the reader loop, contradicting the claim's "including objects with no
method field at all ... never fatal". -/
theorem no_method_line_fatal_cex :
    processLine startState (Json.obj [("foo", Json.str "bar")]) =
      Except.error (ReaderError.keyError "method") := rfl

/-- Claim C7 (amended): for every line parsing to a JSON object with no
`id` field that HAS a `method` field whose value is not the string
`"event"`, the reader loop surfaces the message only as a diagnostic
(printing it) and continues running with the rest of the state unchanged;
but an object with no `id` field and no `method` field at all raises
KeyError, which is fatal to the reader loop. -/
theorem unrecognized_method_diagnostic (s : RpcState) (r m : Json)
    (hid : r.hasKey "id" = false) (hm : r.getKey "method" = some m)
    (hne : m ≠ Json.str "event") :
    processLine s r = Except.ok { s with printed := s.printed ++ [r] } :=
  processLine_diagnostic s r m hid hm hne

theorem unrecognized_method_diagnostic_witness :
    processLine startState (Json.obj [("method", Json.str "unknown")]) =
      Except.ok { startState with
        printed := startState.printed ++ [Json.obj [("method", Json.str "unknown")]] } :=
  unrecognized_method_diagnostic startState (Json.obj [("method", Json.str "unknown")])
    (Json.str "unknown") (by decide) (by decide) (by decide)

/-- Claim C8: a dispatched call supplying both positional and keyword
arguments fails the `assert not (args and kwargs)` synchronously at the
call site: the assertion error is raised before any request is built,
serialized, written to stdin or registered — only the id counter, bumped
before the assert, has changed. -/
theorem mixed_args_assertion (s : RpcState) (attr : String)
    (args : List Json) (kwargs : List (String × Json))
    (ha : args ≠ []) (hk : kwargs ≠ []) :
    sendRequest s attr args kwargs =
      ({ s with id := s.id + 1 },
       Except.error (CallError.assertionError "Mixing positional and keyword arguments")) := by
  simp [sendRequest, ha, hk]

theorem mixed_args_assertion_witness :
    sendRequest startState "misc_send_text_message" [Json.num 12] [("text", Json.str "hi")] =
      ({ startState with id := startState.id + 1 },
       Except.error (CallError.assertionError "Mixing positional and keyword arguments")) :=
  mixed_args_assertion startState "misc_send_text_message" [Json.num 12]
    [("text", Json.str "hi")] (by decide) (by decide)

/-- Claim C9: constructing the transport with a storage-root path (a
non-empty string, which is what Python's truthiness test on the optional
argument accepts as supplied) binds `DC_ACCOUNTS_PATH` to that path in the
child's environment, overriding any prior value, while every other
variable of the base environment (the caller-supplied `env` mapping if
given, else the current process environment) is preserved unchanged. -/
theorem storage_root_env_override (dir : String) (hdir : dir ≠ "")
    (kwargs_env : Option (List (String × String)))
    (os_environ : List (String × String)) :
    alookup (childEnv (some dir) kwargs_env os_environ) "DC_ACCOUNTS_PATH" = some dir ∧
    ∀ k, k ≠ "DC_ACCOUNTS_PATH" →
      alookup (childEnv (some dir) kwargs_env os_environ) k =
        alookup (kwargs_env.getD os_environ) k := by
  constructor
  · simp [childEnv, hdir, alookup_dictInsert_self]
  · intro k hk
    simp [childEnv, hdir, alookup_dictInsert_ne _ _ _ _ hk]

/-- A sample inherited environment, including a stale storage-root binding
that must be overridden. -/
def envW : List (String × String) :=
  [("PATH", "/usr/bin"), ("DC_ACCOUNTS_PATH", "/old"), ("HOME", "/root")]

theorem storage_root_env_override_witness :
    alookup (childEnv (some "/data/accounts") none envW) "DC_ACCOUNTS_PATH" =
      some "/data/accounts" ∧
    alookup (childEnv (some "/data/accounts") none envW) "PATH" = alookup envW "PATH" :=
  ⟨(storage_root_env_override "/data/accounts" (by decide) none envW).1,
   (storage_root_env_override "/data/accounts" (by decide) none envW).2 "PATH" (by decide)⟩

/-- The response line of the scenario: id 1 with result version 1.0. -/
def getInfoResponse : Json :=
  Json.obj [("id", Json.num 1), ("result", Json.obj [("version", Json.str "1.0")])]

/-- Claim C2: invoking `get_info` with no arguments on a freshly started
transport assigns request id 1 and writes to the child's stdin exactly the
single line of the JSON-RPC request (jsonrpc 2.0, method get_info, params
as the empty positional array, id 1) followed by a newline; when the
response line with id 1 and result version 1.0 is read by the reader loop,
it resolves that call's future with the response, and the call returns the
version object. -/
theorem get_info_scenario :
    (sendRequest startState "get_info" [] []).2 = Except.ok 1 ∧
    (sendRequest startState "get_info" [] []).1.stdin_lines =
      ["\x7b\"jsonrpc\": \"2.0\", \"method\": \"get_info\", \"params\": [], \"id\": 1\x7d\n"] ∧
    (∃ s', processLine (sendRequest startState "get_info" [] []).1 getInfoResponse =
        Except.ok s' ∧
      alookup s'.resolved (Json.num 1) = some getInfoResponse) ∧
    finishCall getInfoResponse =
      Except.ok (some (Json.obj [("version", Json.str "1.0")])) := by
  refine ⟨rfl, by decide, ⟨_, rfl, by decide⟩, rfl⟩
